import Mathlib

/-!
# Verification of the oebb-api repository's core logic

A shallow embedding of the train-matching, status-derivation, board-parsing
and journey-inference logic of `src/oebb-direct.js` and `src/demo.js`,
together with theorems settling the frozen claims about the specification.

JavaScript modelling conventions used throughout:
* a possibly-`undefined` string field is `Option String`; JS truthiness of a
  string is "present and non-empty" (in JS only the empty string is falsy
  among strings — note in particular that the string "0" is truthy);
* JS numbers that can be `NaN` are `Option Int` with `none` for `NaN`;
  every comparison with `NaN` is `false`, which the `Option` matches encode;
* local wall-clock instants are a calendar day number plus seconds within
  the day; `new Date()` decomposes into such a pair, `setHours(h, m, 0, 0)`
  keeps the day and replaces the time of day (JS normalises overflowing
  fields into days, which plain second arithmetic reproduces).
-/

namespace Oebb

/-- ASCII whitespace recognised by the JS `\s` character class
(the Unicode additions never occur in the data handled here). -/
def isJsWs (c : Char) : Bool :=
  c = ' ' || c = '\t' || c = '\n' || c = '\r' || c = '\x0b' || c = '\x0c'

/-- JS `s.replace(/\s+/g, '')`: remove every whitespace character. -/
def stripWs (s : String) : String :=
  ⟨s.data.filter (fun c => !isJsWs c)⟩

/-- JS `s.toLowerCase()`: lowercase every character (character-by-character,
as the ASCII labels handled here require). -/
def jsToLower (s : String) : String :=
  ⟨s.data.map Char.toLower⟩

/-- Splitting on a single-character separator, as `s.split(c)` does for
the one-character separators used by the source; no separator occurrence
yields the one-element list, and separators at the ends yield empty
fields, exactly as in JS. -/
def splitChar (sep : Char) : List Char → List Char → List String
  | acc, [] => [⟨acc.reverse⟩]
  | acc, c :: cs =>
      if c = sep then ⟨acc.reverse⟩ :: splitChar sep [] cs
      else splitChar sep (c :: acc) cs

/-- JS `s.split(sep)` for a one-character separator. -/
def jsSplit (s : String) (sep : Char) : List String :=
  splitChar sep [] s.data

/-- Substring containment on character lists: the needle occurs as a
contiguous run somewhere in the haystack. -/
def listContains (needle : List Char) : List Char → Bool
  | [] => needle.isEmpty
  | h :: t => needle.isPrefixOf (h :: t) || listContains needle t

/-- JS `outer.includes(inner)`: substring containment. -/
def jsIncludes (outer inner : String) : Bool :=
  listContains inner.data outer.data

/-- JS string interpolation of a possibly-`undefined` value:
`${x}` prints `undefined` when `x` is `undefined`. -/
def jsTemplate : Option String → String
  | none => "undefined"
  | some s => s

/-- JS truthiness of a possibly-`undefined` string: present and non-empty. -/
def strTruthy : Option String → Bool
  | none => false
  | some s => s ≠ ""

/-- Digits of a leading decimal run. -/
def takeDigits (cs : List Char) : List Char :=
  cs.takeWhile (fun c => c.isDigit)

/-- Value of a digit list, most significant first. -/
def digitsVal (cs : List Char) : Nat :=
  cs.foldl (fun acc c => 10 * acc + (c.toNat - '0'.toNat)) 0

/-- JS `parseInt(s)` (radix 10): skip leading whitespace, optional sign,
then the maximal run of decimal digits; `none` models `NaN` (no digits). -/
def parseIntJs (s : String) : Option Int :=
  let cs := s.data.dropWhile isJsWs
  match cs with
  | '-' :: rest =>
      let ds := takeDigits rest
      if ds.isEmpty then none else some (-(digitsVal ds : Int))
  | '+' :: rest =>
      let ds := takeDigits rest
      if ds.isEmpty then none else some (digitsVal ds : Int)
  | _ =>
      let ds := takeDigits cs
      if ds.isEmpty then none else some (digitsVal ds : Int)

/-- JS `parseInt` applied to a possibly-`undefined` string
(`parseInt(undefined)` is `NaN`). -/
def parseIntJsOpt : Option String → Option Int
  | none => none
  | some s => parseIntJs s

/-! ## Data model: raw departure records

Field names follow the upstream two/three-letter keys used by the source:
`pr` train label, `ti` scheduled time "HH:MM", `da` scheduled date
"DD.MM.YYYY", `tr` platform, `lastStop` destination, `rt` realtime block
with `dlm` delay minutes (integer string), `dlt`/`dld` actual time/date,
`status` tag. -/

/-- The realtime block `train.rt` of a departure record. -/
structure RtInfo where
  dlm : Option String := none
  dlt : Option String := none
  dld : Option String := none
  status : Option String := none
  deriving DecidableEq, Repr

/-- A raw departure record from the station board. `ti` is kept as a plain
string because `trackTrainJourney` dereferences it unconditionally. -/
structure Departure where
  pr : Option String := none
  ti : String := ""
  da : Option String := none
  tr : Option String := none
  lastStop : Option String := none
  rt : Option RtInfo := none
  deriving DecidableEq, Repr

/-- The expression `train.rt && train.rt.dlm` as a boolean: realtime block present and
its delay field truthy. -/
def hasDelayField (d : Departure) : Bool :=
  match d.rt with
  | none => false
  | some r => strTruthy r.dlm

/-! ## Matching a queried train label against a departure record -/

/-- The matching predicate of `checkTrainDelay` (oebb-direct.js:50-60):
`fullName === searchPattern || d.pr === trainNumber ||
 (d.pr && d.pr.toLowerCase().includes(trainNumber.toLowerCase()))`
where `searchPattern` strips whitespace then lowercases the query and
`fullName` lowercases then strips the record label. -/
def matchDelay (trainNumber : String) (d : Departure) : Bool :=
  let searchPattern := jsToLower (stripWs trainNumber)
  let fullName := stripWs (jsToLower (d.pr.getD ""))
  fullName == searchPattern ||
  d.pr == some trainNumber ||
  (strTruthy d.pr && jsIncludes (jsToLower (d.pr.getD "")) (jsToLower trainNumber))

/-- The matching predicate of `trackTrainJourney` (oebb-direct.js:104-109);
textually it lowercases the query before stripping, otherwise identical. -/
def matchTrack (trainName : String) (d : Departure) : Bool :=
  let fullName := stripWs (jsToLower (d.pr.getD ""))
  fullName == stripWs (jsToLower trainName) ||
  d.pr == some trainName ||
  (strTruthy d.pr && jsIncludes (jsToLower (d.pr.getD "")) (jsToLower trainName))

/-! ## checkTrainDelay (oebb-direct.js:42-87)

The network layers (`authenticate`, the HTTP transport) are out of scope;
the function is modelled from the point where the station board
(`getBoardData`'s resolution) is available, as either an error or a list of
departure records. -/

/-- The object literal resolved by `checkTrainDelay` for a matched train. -/
structure DelayInfo where
  train : Departure
  isDelayed : Bool
  delayMinutes : Option Int
  scheduledDeparture : String
  actualDeparture : String
  platform : String
  direction : String
  status : Option String
  canceled : Bool
  deriving DecidableEq, Repr

/-- The comparison `delay > 0` in JS, where `delay` may be `NaN` (false on `NaN`). -/
def gtZeroJs : Option Int → Bool
  | none => false
  | some d => 0 < d

/-- The formatting block of `checkTrainDelay` (oebb-direct.js:66-84). -/
def formatDelayInfo (train : Departure) : DelayInfo :=
  let departureTime := train.ti
  let departureDate := if strTruthy train.da then train.da.getD "" else ""
  let delay : Option Int :=
    if hasDelayField train then parseIntJsOpt ((train.rt.getD {}).dlm) else some 0
  let actualTime :=
    if train.rt.isSome && strTruthy (train.rt.getD {}).dlt then
      (train.rt.getD {}).dlt.getD "" else departureTime
  let actualDate :=
    if train.rt.isSome && strTruthy (train.rt.getD {}).dld then
      (train.rt.getD {}).dld.getD "" else departureDate
  let status :=
    if train.rt.isSome && strTruthy (train.rt.getD {}).status then
      (train.rt.getD {}).status else none
  { train := train
    isDelayed := gtZeroJs delay
    delayMinutes := delay
    scheduledDeparture := departureDate ++ " " ++ departureTime
    actualDeparture := actualDate ++ " " ++ actualTime
    platform := if strTruthy train.tr then train.tr.getD "" else ""
    direction := if strTruthy train.lastStop then train.lastStop.getD "" else ""
    status := status
    canceled := status == some "Ausfall" }

/-- Embedding of `checkTrainDelay` from the resolved station board onward: find the first
matching departure, reject with a not-found error when there is none,
otherwise resolve with the formatted information of the first match. -/
def checkTrainDelay (stationId trainNumber : String)
    (departures : List Departure) : Except String DelayInfo :=
  match departures.find? (matchDelay trainNumber) with
  | none => .error ("Train " ++ trainNumber ++ " not found at station " ++ stationId)
  | some train => .ok (formatDelayInfo train)

/-! ## Local time model and per-station status derivation -/

/-- A local wall-clock instant, as produced by `new Date()`: the calendar
day (as a day number) and the seconds elapsed within that day. -/
structure Now where
  day : Int
  sec : Int
  deriving DecidableEq, Repr

/-- Total seconds of an instant, the order used by JS `Date` comparison. -/
def Now.total (n : Now) : Int := n.day * 86400 + n.sec

/-- The hour and minute fields parsed from `train.ti` by
`train.ti.split(':')` followed by `parseInt` on the first two components
(oebb-direct.js:122-124); `none` models `NaN`. -/
def tiHourMin (ti : String) : Option Int × Option Int :=
  let parts := jsSplit ti ':'
  (parseIntJsOpt (parts.get? 0), parseIntJsOpt (parts.get? 1))

/-- The scheduled departure instant built by `trackTrainJourney`
(oebb-direct.js:126-127): **today's** date — the calendar day of `now` —
with the hours and minutes taken from `train.ti`; `none` models the
Invalid Date arising from a `NaN` component. Seconds since epoch. -/
def trackScheduledSec (now : Now) (ti : String) : Option Int :=
  match tiHourMin ti with
  | (some h, some m) => some (now.day * 86400 + h * 3600 + m * 60)
  | _ => none

/-- The assignment `delayMinutes = hasDelay ? parseInt(train.rt.dlm) : 0`
(oebb-direct.js:130-131); `none` models `NaN`. -/
def trackDelayMinutes (d : Departure) : Option Int :=
  if hasDelayField d then parseIntJsOpt ((d.rt.getD {}).dlm) else some 0

/-- The actual departure instant (oebb-direct.js:134-135): scheduled plus
the delay in minutes; Invalid Date (`none`) propagates. -/
def trackActualSec (now : Now) (d : Departure) : Option Int :=
  match trackScheduledSec now d.ti, trackDelayMinutes d with
  | some s, some dm => some (s + dm * 60)
  | _, _ => none

/-- The test `now > actualDepartureDate` in JS: strict comparison of instants,
false whenever the actual instant is an Invalid Date. -/
def nowPastActual (now : Now) (d : Departure) : Bool :=
  match trackActualSec now d with
  | none => false
  | some a => a < now.total

/-- The status string derived for a matched record
(oebb-direct.js:137-143). -/
def trackStatus (now : Now) (d : Departure) : String :=
  if nowPastActual now d then "departed"
  else if hasDelayField d then "delayed"
  else "scheduled"

/-! ## trackTrainJourney checkpoints (oebb-direct.js:95-170) -/

/-- The fields of a checkpoint object for a station where the train was
found (oebb-direct.js:145-155). -/
structure FoundInfo where
  train : Departure
  status : String
  scheduledDeparture : String
  actualDeparture : String
  delayMinutes : Option Int
  platform : String
  departed : Bool
  deriving DecidableEq, Repr

/-- A per-station checkpoint: the three object shapes returned by the
per-station promise — not found (oebb-direct.js:113-117), found
(145-155), or the degraded result of the `.catch` (159-163). -/
inductive Checkpoint where
  | notFound (stationId : String)
  | fetchError (stationId : String) (error : String)
  | found (stationId : String) (info : FoundInfo)
  deriving DecidableEq, Repr

/-- The station id carried by a checkpoint, whatever its shape. -/
def Checkpoint.stationId : Checkpoint → String
  | .notFound sid => sid
  | .fetchError sid _ => sid
  | .found sid _ => sid

/-- The found-checkpoint fields computed for a matched record
(oebb-direct.js:120-155). -/
def mkFoundInfo (now : Now) (train : Departure) : FoundInfo :=
  let hasDelay := hasDelayField train
  { train := train
    status := trackStatus now train
    scheduledDeparture := jsTemplate train.da ++ " " ++ train.ti
    actualDeparture :=
      if hasDelay then
        jsTemplate (train.rt.getD {}).dld ++ " " ++ jsTemplate (train.rt.getD {}).dlt
      else jsTemplate train.da ++ " " ++ train.ti
    delayMinutes := trackDelayMinutes train
    platform := if strTruthy train.tr then train.tr.getD "" else "N/A"
    departed := nowPastActual now train }

/-- One station's checkpoint computation, from the outcome of that
station's board lookup: a lookup error degrades to a `found:false`
checkpoint recording the error (the `.catch`), an absent match yields
`not_found`, and a match yields the full found checkpoint. -/
def checkStation (trainName : String) (now : Now) (stationId : String)
    (board : Except String (List Departure)) : Checkpoint :=
  match board with
  | .error e => .fetchError stationId e
  | .ok departures =>
      match departures.find? (matchTrack trainName) with
      | none => .notFound stationId
      | some train => .found stationId (mkFoundInfo now train)

/-- Embedding of `trackTrainJourney` from the per-station board outcomes onward:
`stationIds.map` builds one promise per input station id and
`Promise.all` resolves with their results in that same input order,
which the list map reproduces. `fetch` gives each station's board
outcome. -/
def trackTrainJourney (trainName : String) (now : Now)
    (stationIds : List String)
    (fetch : String → Except String (List Departure)) : List Checkpoint :=
  stationIds.map (fun sid => checkStation trainName now sid (fetch sid))

/-! ## Overall journey inference (demo.js:112-165) -/

/-- The `{stationId, time}` literal stored in `lastDeparted` /
`nextArrival` by the track command. -/
structure Loc where
  stationId : String
  time : String
  deriving DecidableEq, Repr

/-- One iteration of the `results.forEach` loop of the track command
(demo.js:116-148), acting on the pair `(lastDeparted, nextArrival)`:
a found departed checkpoint overwrites `lastDeparted`; a found scheduled
or delayed checkpoint sets `nextArrival` only when it is still unset;
all other checkpoints leave the pair unchanged. -/
def inferStep (acc : Option Loc × Option Loc) (cp : Checkpoint) :
    Option Loc × Option Loc :=
  match cp with
  | .found sid info =>
      if info.status == "departed" then
        (some ⟨sid, info.actualDeparture⟩, acc.2)
      else if info.status == "scheduled" || info.status == "delayed" then
        match acc.2 with
        | none => (acc.1, some ⟨sid, info.actualDeparture⟩)
        | some _ => acc
      else acc
  | _ => acc

/-- The `(lastDeparted, nextArrival)` pair after the whole forEach loop,
starting from `(null, null)`. -/
def inferJourney (results : List Checkpoint) : Option Loc × Option Loc :=
  results.foldl inferStep (none, none)

/-- A checkpoint counted as "departed" by the loop: found with status
string `departed`. -/
def isDepartedCp : Checkpoint → Bool
  | .found _ info => info.status == "departed"
  | _ => false

/-- A checkpoint eligible for `nextArrival`: found with status
`scheduled` or `delayed`. -/
def isWaitingCp : Checkpoint → Bool
  | .found _ info => info.status == "scheduled" || info.status == "delayed"
  | _ => false

/-- The `{stationId, time}` value the loop would store for a found
checkpoint. -/
def cpLoc : Checkpoint → Option Loc
  | .found sid info => some ⟨sid, info.actualDeparture⟩
  | _ => none

/-! ## getBoardData response handling (oebb-direct.js:291-314)

The HTTP layer is out of scope; the embedding starts at the raw response
body. The marker extraction `body.match(/journeysObj\s*=\s*(\{.*\})/s)`
is implemented concretely; `JSON.parse` is an external library routine and
is abstracted as a parameter returning `none` on invalid JSON. -/

/-- Attempt the regex `journeysObj\s*=\s*(\{.*\})` (dotall) anchored at the
head of the character list, returning the captured group: the literal
`journeysObj`, maximal whitespace, `=`, maximal whitespace, then an
opening brace; the greedy `.*` makes the group run to the last closing
brace of the remainder. Backtracking inside `\s*` cannot help, since the
next pattern atom is never a whitespace character. -/
def markerAt (cs : List Char) : Option (List Char) :=
  if "journeysObj".data.isPrefixOf cs then
    let r1 := (cs.drop 11).dropWhile isJsWs
    match r1 with
    | '=' :: r2 =>
        match r2.dropWhile isJsWs with
        | '\x7b' :: rest =>
            let grp := (rest.reverse.dropWhile (fun c => c ≠ '\x7d')).reverse
            if grp.isEmpty then none else some ('\x7b' :: grp)
        | _ => none
    | _ => none
  else none

/-- Leftmost match: try the pattern at each start position in order, as
the JS regex engine does for a non-global regex. -/
def extractScan : List Char → Option (List Char)
  | [] => none
  | c :: cs =>
      match markerAt (c :: cs) with
      | some g => some g
      | none => extractScan cs

/-- The call `body.match(/journeysObj\s*=\s*(\{.*\})/s)` and the captured group
`match[1]`, or `none` when the marker pattern is absent. -/
def extractJourneysObj (body : String) : Option String :=
  (extractScan body.data).map (fun g => ⟨g⟩)

/-- The parsed JSON value, abstracted to the two observations the code
makes of it: its JS truthiness (`!data`) and its `journey` property when
that holds a departure list (`none` for an absent or falsy property). -/
structure ParsedBody where
  truthy : Bool
  journey : Option (List Departure)
  deriving DecidableEq, Repr

/-- The three outcomes of `getBoardData`'s response handling. -/
inductive BoardResult where
  | formatError
  | noDeparturesError
  | ok (journeys : List Departure)
  deriving DecidableEq, Repr

/-- Embedding of `getBoardData`'s handling of a raw response body
(oebb-direct.js:291-314): extract the `journeysObj = {...}` marker
(rejecting with the format error when absent), parse the extracted JSON
(rejecting with the same format error when invalid), reject with the
no-departures error when the parsed value is falsy or has no `journey`
list, and resolve with the `journey` list otherwise. `parse` abstracts
`JSON.parse`, `none` meaning a parse exception. -/
def getBoardData (parse : String → Option ParsedBody) (body : String) :
    BoardResult :=
  match extractJourneysObj body with
  | none => .formatError
  | some s =>
      match parse s with
      | none => .formatError
      | some data =>
          if !data.truthy then .noDeparturesError
          else match data.journey with
            | none => .noDeparturesError
            | some js => .ok js

/-! ## Specification-side definitions

These follow the spec's words, for comparison with the definitions
embedded from the source (refinement checks). -/

/-- Modelled from the spec: `lastDeparted` as the spec defines it — the
rightmost (by list order) checkpoint with status `departed`. -/
def specLastDeparted (results : List Checkpoint) : Option Checkpoint :=
  results.reverse.find? isDepartedCp

/-- Modelled from the spec: the index of the rightmost departed
checkpoint, when one exists. -/
def specLastDepartedIdx (results : List Checkpoint) : Option Nat :=
  (List.range results.length).reverse.find?
    (fun i => isDepartedCp (results.getD i (.notFound "")))

/-- Modelled from the spec: `nextArrival` as the claim defines it — the
leftmost checkpoint strictly after `lastDeparted`'s position with status
`scheduled` or `delayed` (leftmost overall when nothing has departed). -/
def specNextArrival (results : List Checkpoint) : Option Checkpoint :=
  match specLastDepartedIdx results with
  | some k => (results.drop (k + 1)).find? isWaitingCp
  | none => results.find? isWaitingCp

/-- Modelled from the spec: the matching rule with first-match-wins
precedence **across the whole list** — all records are tried against
clause 1 (case-insensitive whitespace-stripped equality) before any is
tried against clause 2 (exact equality), and those before clause 3
(case-insensitive substring containment). -/
def specMatchPrecedence (q : String) (ds : List Departure) :
    Option Departure :=
  (ds.find? (fun d => stripWs (jsToLower (d.pr.getD "")) == jsToLower (stripWs q))).orElse
  (fun _ => (ds.find? (fun d => d.pr == some q)).orElse
  (fun _ => ds.find? (fun d =>
    strTruthy d.pr && jsIncludes (jsToLower (d.pr.getD "")) (jsToLower q))))

/-- Days since the civil epoch 1970-01-01 of a Gregorian calendar date
(standard days-from-civil computation), used to give the spec's
`combine(scheduledDate, scheduledTime)` a concrete day number. -/
def civilDay (y m d : Int) : Int :=
  let y' := if m ≤ 2 then y - 1 else y
  let era := (if 0 ≤ y' then y' else y' - 399) / 400
  let yoe := y' - era * 400
  let mp := (m + 9) % 12
  let doy := (153 * mp + 2) / 5 + d - 1
  let doe := yoe * 365 + yoe / 4 - yoe / 100 + doy
  era * 146097 + doe - 719468

/-- Modelled from the spec: parse a `DD.MM.YYYY` date string into its day
number, `none` when the shape is absent. -/
def parseDaDay (da : Option String) : Option Int :=
  match da with
  | none => none
  | some s =>
      match jsSplit s '.' with
      | [dd, mm, yyyy] =>
          match parseIntJs dd, parseIntJs mm, parseIntJs yyyy with
          | some d, some m, some y => some (civilDay y m d)
          | _, _, _ => none
      | _ => none

/-- Modelled from the spec: the scheduled departure instant as the spec
defines it — `combine(scheduledDate, scheduledTime)`, the record's own
calendar date with the record's time of day (local, no timezone
conversion). -/
def specScheduledSec (d : Departure) : Option Int :=
  match parseDaDay d.da, tiHourMin d.ti with
  | some day, (some h, some m) => some (day * 86400 + h * 3600 + m * 60)
  | _, _ => none

/-- Modelled from the spec: status derivation using the spec's scheduled
instant (the record's own date), with the same delay handling. -/
def specTrackStatus (now : Now) (d : Departure) : String :=
  let actual :=
    match specScheduledSec d, trackDelayMinutes d with
    | some s, some dm => some (s + dm * 60)
    | _, _ => none
  if (match actual with | none => false | some a => a < now.total) then "departed"
  else if hasDelayField d then "delayed"
  else "scheduled"

/-! ## Concrete fixtures used by counterexamples and witnesses -/

/-- A record whose label matches the query "RJ 840" only through
case-insensitive substring containment (clause 3). -/
def cexSubOnly : Departure := { pr := some "xRJ 840x" }

/-- A record whose label equals "RJ 840" exactly (clauses 1 and 2). -/
def cexExact : Departure := { pr := some "RJ 840" }

/-- A board listing the substring-only record before the exact one. -/
def cexBoard : List Departure := [cexSubOnly, cexExact]

/-- A train scheduled at 11:00 (still in the future at 10:05). -/
def cexTrainA : Departure := { pr := some "RJ 840", ti := "11:00" }

/-- A train scheduled at 10:00 (already past at 10:05). -/
def cexTrainB : Departure := { pr := some "RJ 840", ti := "10:00" }

/-- Time 10:05:00 on day 0. -/
def cexNow : Now := ⟨0, 36300⟩

/-- Per-station boards: station "A" lists the 11:00 train, every other
station the 10:00 train. -/
def cexFetch (sid : String) : Except String (List Departure) :=
  if sid = "A" then .ok [cexTrainA] else .ok [cexTrainB]

/-- The checkpoint list of a track call where station "A" (first) is still
scheduled and station "B" (second) has departed. -/
def cexTrackList : List Checkpoint :=
  trackTrainJourney "RJ 840" cexNow ["A", "B"] cexFetch

/-- A record with realtime data whose delay field is the string "0". -/
def cexZeroTrain : Departure := { ti := "10:00", rt := some { dlm := some "0" } }

/-- A record dated 03.01.2025, scheduled 10:00. -/
def cexDaTrain : Departure := { ti := "10:00", da := some "03.01.2025" }

/-- Time 10:05:00 on 02.01.2025 — the calendar day before the record's date. -/
def cexDaNow : Now := ⟨civilDay 2025 1 2, 36300⟩

/-- Witness fixtures: a board lookup succeeding with an empty list. -/
def wFetchOk (_ : String) : Except String (List Departure) := .ok []

/-- Witness fixtures: the same lookup but failing at station "B". -/
def wFetchErr (sid : String) : Except String (List Departure) :=
  if sid = "B" then .error "boom" else .ok []

/-- Witness fixtures: a parse function accepting nothing. -/
def wParseNone (_ : String) : Option ParsedBody := none

/-- Witness fixtures: a board lookup resolving with the exact record. -/
def wFetchTrain (_ : String) : Except String (List Departure) := .ok [cexExact]

/-! ## Helper lemmas -/

/-- The function `List.find?` returns the first element satisfying the predicate:
`find? p l = some a` iff `a` sits at a position `i`, satisfies `p`, and
every earlier element fails `p`. -/
theorem find?_first_iff {α : Type} (p : α → Bool) (l : List α) (a : α) :
    l.find? p = some a ↔
      ∃ i, l.get? i = some a ∧ p a = true ∧
        ∀ j, j < i → ∀ b, l.get? j = some b → p b = false := by
  induction l with
  | nil => simp
  | cons x xs ih =>
    by_cases hx : p x = true
    · rw [List.find?_cons_of_pos _ hx]
      constructor
      · intro h
        obtain rfl : x = a := by simpa using h
        exact ⟨0, rfl, hx, fun j hj => absurd hj (Nat.not_lt_zero j)⟩
      · rintro ⟨i, hget, _, hmin⟩
        match i, hget with
        | 0, hget => simpa using hget
        | i + 1, hget =>
          exact absurd hx (by simp [hmin 0 (Nat.succ_pos i) x rfl])
    · rw [List.find?_cons_of_neg _ hx, ih]
      constructor
      · rintro ⟨i, hget, hpa, hmin⟩
        refine ⟨i + 1, by simpa using hget, hpa, ?_⟩
        intro j hj b hgb
        match j, hgb with
        | 0, hgb =>
          obtain rfl : x = b := by simpa using hgb
          simpa using hx
        | j + 1, hgb => exact hmin j (by omega) b (by simpa using hgb)
      · rintro ⟨i, hget, hpa, hmin⟩
        match i, hget with
        | 0, hget =>
          obtain rfl : x = a := by simpa using hget
          exact absurd hpa hx
        | i + 1, hget =>
          exact ⟨i, by simpa using hget, hpa,
            fun j hj b hgb => hmin (j + 1) (by omega) b (by simpa using hgb)⟩

/-- One loop iteration's effect on `lastDeparted`: a departed checkpoint
overwrites it with its own location, anything else keeps it. -/
theorem inferStep_fst (a : Option Loc × Option Loc) (x : Checkpoint) :
    (inferStep a x).1 = if isDepartedCp x then cpLoc x else a.1 := by
  cases x with
  | notFound sid => rfl
  | fetchError sid e => rfl
  | found sid info =>
    by_cases hd : info.status = "departed"
    · simp [inferStep, isDepartedCp, cpLoc, hd]
    · by_cases hw : info.status = "scheduled" ∨ info.status = "delayed"
      · cases h2 : a.2 <;> rcases hw with hw | hw <;>
          simp [inferStep, isDepartedCp, hd, hw, h2]
      · push_neg at hw
        simp [inferStep, isDepartedCp, hd, hw.1, hw.2]

/-- One loop iteration's effect on `nextArrival`: once set it never
changes; while unset, a waiting (scheduled/delayed) checkpoint sets it. -/
theorem inferStep_snd (a : Option Loc × Option Loc) (x : Checkpoint) :
    (inferStep a x).2 =
      match a.2 with
      | some v => some v
      | none => if isWaitingCp x then cpLoc x else none := by
  cases x with
  | notFound sid => cases h2 : a.2 <;> simp [inferStep, isWaitingCp, h2]
  | fetchError sid e => cases h2 : a.2 <;> simp [inferStep, isWaitingCp, h2]
  | found sid info =>
    by_cases hd : info.status = "departed"
    · cases h2 : a.2 <;> simp [inferStep, isWaitingCp, hd, h2]
    · by_cases hw : info.status = "scheduled" ∨ info.status = "delayed"
      · cases h2 : a.2 <;> rcases hw with hw | hw <;>
          simp [inferStep, isWaitingCp, cpLoc, hd, hw, h2]
      · push_neg at hw
        cases h2 : a.2 <;> simp [inferStep, isWaitingCp, hd, hw.1, hw.2, h2]

/-- The value of `lastDeparted` after folding the loop over a list: the location of the
rightmost departed checkpoint, or the incoming accumulator when none. -/
theorem foldl_inferStep_fst (l : List Checkpoint) (a : Option Loc × Option Loc) :
    (l.foldl inferStep a).1 =
      match l.reverse.find? isDepartedCp with
      | some cp => cpLoc cp
      | none => a.1 := by
  induction l generalizing a with
  | nil => simp
  | cons x xs ih =>
    rw [List.foldl_cons, ih, List.reverse_cons, List.find?_append]
    cases hfind : xs.reverse.find? isDepartedCp with
    | some cp => simp [Option.or]
    | none =>
      by_cases hx : isDepartedCp x = true
      · simp [Option.or, List.find?_cons_of_pos _ hx, inferStep_fst, hx]
      · simp [Option.or, List.find?_cons_of_neg _ hx, inferStep_fst, hx]

/-- The value of `nextArrival` after folding the loop over a list: the incoming value
when already set, otherwise the location of the leftmost waiting
(scheduled/delayed) checkpoint. -/
theorem foldl_inferStep_snd (l : List Checkpoint) (a : Option Loc × Option Loc) :
    (l.foldl inferStep a).2 =
      match a.2 with
      | some v => some v
      | none => (l.find? isWaitingCp).bind cpLoc := by
  induction l generalizing a with
  | nil => cases h2 : a.2 <;> simp [h2]
  | cons x xs ih =>
    rw [List.foldl_cons, ih, inferStep_snd]
    cases h2 : a.2 with
    | some v => rfl
    | none =>
      by_cases hx : isWaitingCp x = true
      · cases x with
        | notFound sid => simp [isWaitingCp] at hx
        | fetchError sid e => simp [isWaitingCp] at hx
        | found sid info =>
          simp [List.find?_cons_of_pos _ hx, hx, cpLoc]
      · simp [List.find?_cons_of_neg _ hx, hx]

/-! ## Claim theorems -/

/-- C1 (counterexample): the claim that `nextArrival` is the leftmost
scheduled/delayed checkpoint strictly after `lastDeparted`'s position —
so that a waiting checkpoint before the rightmost departed one is never
chosen — is false. In a reachable track result whose first station is
still scheduled and whose second has departed, the rightmost departed
checkpoint sits at index 1, the claim's `nextArrival` is therefore empty,
yet the code picks the waiting checkpoint at index 0 (station "A"). -/
theorem C1_counterexample :
    (inferJourney cexTrackList).2 = some ⟨"A", "undefined 11:00"⟩ ∧
    specNextArrival cexTrackList = none ∧
    specLastDepartedIdx cexTrackList = some 1 ∧
    isWaitingCp (cexTrackList.getD 0 (.notFound "")) = true := by decide

/-- C1 (amended): over the ordered checkpoint list, `lastDeparted` is the
rightmost checkpoint with status `departed` (as claimed), while
`nextArrival` is the leftmost checkpoint with status `scheduled` or
`delayed` in the **whole** list, irrespective of its position relative to
`lastDeparted`. -/
theorem C1_journey_inference (results : List Checkpoint) :
    inferJourney results =
      ((results.reverse.find? isDepartedCp).bind cpLoc,
       (results.find? isWaitingCp).bind cpLoc) := by
  refine Prod.ext ?_ ?_
  · rw [inferJourney, foldl_inferStep_fst]
    cases h : results.reverse.find? isDepartedCp <;> simp
  · rw [inferJourney, foldl_inferStep_snd]

/-- C2 (counterexample): the claim that the three matching clauses carry
first-match-wins precedence across the whole list is false: for the query
"RJ 840", a board listing first a record matching only by substring
containment (clause 3) and then a record matching by stripped equality
(clause 1), both the track matcher and `checkTrainDelay` pick the earlier
substring-only record, while the claimed precedence picks the later exact
one. -/
theorem C2_counterexample :
    cexBoard.find? (matchTrack "RJ 840") = some cexSubOnly ∧
    checkTrainDelay "S" "RJ 840" cexBoard = .ok (formatDelayInfo cexSubOnly) ∧
    specMatchPrecedence "RJ 840" cexBoard = some cexExact ∧
    cexSubOnly ≠ cexExact :=
  ⟨by decide, rfl, by decide, by decide⟩

/-- C2 (amended): matching scans the station's departure list once; a
record matches when it satisfies the disjunction of the three clauses
(stripped case-insensitive equality, exact equality, case-insensitive
substring containment), and the first matching record in list order wins
— clause order gives no precedence across records. -/
theorem C2_first_match (q : String) (ds : List Departure) (d : Departure) :
    ds.find? (matchTrack q) = some d ↔
      ∃ i, ds.get? i = some d ∧
        (stripWs (jsToLower (d.pr.getD "")) = stripWs (jsToLower q) ∨
         d.pr = some q ∨
         (strTruthy d.pr = true ∧
          jsIncludes (jsToLower (d.pr.getD "")) (jsToLower q) = true)) ∧
        ∀ j, j < i → ∀ e, ds.get? j = some e → matchTrack q e = false := by
  rw [find?_first_iff]
  have hmatch : (matchTrack q d = true) ↔
      (stripWs (jsToLower (d.pr.getD "")) = stripWs (jsToLower q) ∨
       d.pr = some q ∨
       (strTruthy d.pr = true ∧
        jsIncludes (jsToLower (d.pr.getD "")) (jsToLower q) = true)) := by
    simp [matchTrack, Bool.or_eq_true, beq_iff_eq, Bool.and_eq_true]
    tauto
  constructor
  · rintro ⟨i, hget, hpa, hmin⟩
    exact ⟨i, hget, hmatch.mp hpa, hmin⟩
  · rintro ⟨i, hget, hpa, hmin⟩
    exact ⟨i, hget, hmatch.mpr hpa, hmin⟩

/-- C2 witness: at a concrete board, the first-match characterization
yields the substring-only record at index 0. -/
theorem C2_first_match_witness :
    ∃ i, cexBoard.get? i = some cexSubOnly ∧
      (stripWs (jsToLower (cexSubOnly.pr.getD "")) = stripWs (jsToLower "RJ 840") ∨
       cexSubOnly.pr = some "RJ 840" ∨
       (strTruthy cexSubOnly.pr = true ∧
        jsIncludes (jsToLower (cexSubOnly.pr.getD "")) (jsToLower "RJ 840") = true)) ∧
      ∀ j, j < i → ∀ e, cexBoard.get? j = some e →
        matchTrack "RJ 840" e = false :=
  (C2_first_match "RJ 840" cexBoard cexSubOnly).mp (by decide)

/-- C3: status derivation is a deterministic function of the record's
scheduled fields, its delay, and `now` (here quantified also over the
scheduledDate field `da`), and on a day where the scheduled instant is
neither within the first minute nor the last quarter hour it satisfies
the four specified instances: one minute before schedule with no delay →
`scheduled`; five minutes after with no delay → `departed`; one minute
before with a 10-minute delay → `delayed`; fifteen minutes after with a
10-minute delay → `departed`. -/
theorem C3_status_instances (day : Int) (ti : String) (da : Option String)
    (h m : Int) (hti : tiHourMin ti = (some h, some m))
    (_hlo : 60 ≤ h * 3600 + m * 60)
    (_hhi : h * 3600 + m * 60 + 900 < 86400) :
    trackStatus ⟨day, h * 3600 + m * 60 - 60⟩ { ti := ti, da := da } = "scheduled" ∧
    trackStatus ⟨day, h * 3600 + m * 60 + 300⟩ { ti := ti, da := da } = "departed" ∧
    trackStatus ⟨day, h * 3600 + m * 60 - 60⟩
      { ti := ti, da := da, rt := some { dlm := some "10" } } = "delayed" ∧
    trackStatus ⟨day, h * 3600 + m * 60 + 900⟩
      { ti := ti, da := da, rt := some { dlm := some "10" } } = "departed" := by
  have hd0 : trackDelayMinutes { ti := ti, da := da } = some 0 := by
    simp [trackDelayMinutes, hasDelayField]
  have hd10 : trackDelayMinutes
      { ti := ti, da := da, rt := some { dlm := some "10" } } = some 10 := by
    simp only [trackDelayMinutes, hasDelayField]
    decide
  refine ⟨?_, ?_, ?_, ?_⟩
  · have hnp : nowPastActual ⟨day, h * 3600 + m * 60 - 60⟩
        { ti := ti, da := da } = false := by
      simp only [nowPastActual, trackActualSec, trackScheduledSec, hti, hd0, Now.total,
        decide_eq_false_iff_not]
      omega
    simp [trackStatus, hnp, hasDelayField]
  · have hnp : nowPastActual ⟨day, h * 3600 + m * 60 + 300⟩
        { ti := ti, da := da } = true := by
      simp only [nowPastActual, trackActualSec, trackScheduledSec, hti, hd0, Now.total,
        decide_eq_true_eq]
      omega
    simp [trackStatus, hnp]
  · have hnp : nowPastActual ⟨day, h * 3600 + m * 60 - 60⟩
        { ti := ti, da := da, rt := some { dlm := some "10" } } = false := by
      simp only [nowPastActual, trackActualSec, trackScheduledSec, hti, hd10, Now.total,
        decide_eq_false_iff_not]
      omega
    have hhd : hasDelayField
        { ti := ti, da := da, rt := some { dlm := some "10" } } = true := by
      simp [hasDelayField, strTruthy]
    simp [trackStatus, hnp, hhd]
  · have hnp : nowPastActual ⟨day, h * 3600 + m * 60 + 900⟩
        { ti := ti, da := da, rt := some { dlm := some "10" } } = true := by
      simp only [nowPastActual, trackActualSec, trackScheduledSec, hti, hd10, Now.total,
        decide_eq_true_eq]
      omega
    simp [trackStatus, hnp]

/-- C3 witness: the four instances at `ti = "10:00"` on day 0. -/
theorem C3_status_instances_witness :
    tiHourMin "10:00" = (some 10, some 0) ∧
    (trackStatus ⟨0, 10 * 3600 + 0 * 60 - 60⟩ { ti := "10:00", da := none } = "scheduled" ∧
     trackStatus ⟨0, 10 * 3600 + 0 * 60 + 300⟩ { ti := "10:00", da := none } = "departed" ∧
     trackStatus ⟨0, 10 * 3600 + 0 * 60 - 60⟩
       { ti := "10:00", da := none, rt := some { dlm := some "10" } } = "delayed" ∧
     trackStatus ⟨0, 10 * 3600 + 0 * 60 + 900⟩
       { ti := "10:00", da := none, rt := some { dlm := some "10" } } = "departed") :=
  ⟨by decide, C3_status_instances 0 "10:00" none 10 0 (by decide) (by decide) (by decide)⟩

/-- C4 (counterexample): the claim that a record with realtime delay
field `"0"` and `now` not past the actual instant derives status
`scheduled` is false: the string "0" is truthy in JS, so the code derives
`delayed`. -/
theorem C4_counterexample :
    nowPastActual ⟨0, 35940⟩ cexZeroTrain = false ∧
    trackStatus ⟨0, 35940⟩ cexZeroTrain = "delayed" ∧
    trackStatus ⟨0, 35940⟩ cexZeroTrain ≠ "scheduled" := by decide

/-- C4 (amended): for a matched record whose realtime delay field is the
string "0" and `now` not past the actual departure instant, the derived
status is `delayed`, because the non-empty string "0" is **truthy** in
JS (only the empty string is falsy). -/
theorem C4_zero_delay_is_delayed (now : Now) (d : Departure) (r : RtInfo)
    (hrt : d.rt = some r) (hdlm : r.dlm = some "0")
    (hnp : nowPastActual now d = false) :
    trackStatus now d = "delayed" := by
  have hhd : hasDelayField d = true := by
    simp [hasDelayField, hrt, hdlm, strTruthy]
  simp [trackStatus, hnp, hhd]

/-- C4 witness: the amended statement at a concrete record and instant. -/
theorem C4_zero_delay_is_delayed_witness :
    cexZeroTrain.rt = some { dlm := some "0" } ∧
    nowPastActual ⟨0, 35940⟩ cexZeroTrain = false ∧
    trackStatus ⟨0, 35940⟩ cexZeroTrain = "delayed" :=
  ⟨rfl, by decide,
    C4_zero_delay_is_delayed ⟨0, 35940⟩ cexZeroTrain { dlm := some "0" } rfl rfl (by decide)⟩

/-- C5 (counterexample): the claim that the scheduled instant combines the
record's own `scheduledDate` with its `scheduledTime` is false: at
10:05 on 02.01.2025, a record dated 03.01.2025 and scheduled 10:00 is
derived `departed` by the code (which uses today's date), while
evaluation at the record's own date — as the claim requires — would
yield `scheduled`, the record's date not being today. -/
theorem C5_counterexample :
    trackStatus cexDaNow cexDaTrain = "departed" ∧
    specTrackStatus cexDaNow cexDaTrain = "scheduled" ∧
    parseDaDay cexDaTrain.da ≠ some cexDaNow.day := by decide

/-- C5 (amended): status derivation ignores the record's `scheduledDate`
entirely — the scheduled instant is **today's** calendar day (the day of
`now`) combined with `scheduledTime`, so two records differing only in
their date field derive the same status. -/
theorem C5_date_ignored (now : Now) (d : Departure) (da1 da2 : Option String) :
    trackStatus now { d with da := da1 } = trackStatus now { d with da := da2 } ∧
    trackScheduledSec now d.ti =
      (match tiHourMin d.ti with
       | (some h, some m) => some (now.day * 86400 + h * 3600 + m * 60)
       | _ => none) := by
  exact ⟨rfl, rfl⟩

/-- C6: a board-lookup failure at one station never aborts the others.
If `fetch'` behaves like `fetch` except that it fails at station `s` with
message `e`, then every position of the track result holding `s` degrades
to the `found:false` checkpoint recording `e`, while every position
holding a different station id is exactly what it is under `fetch`. -/
theorem C6_fault_isolation (q : String) (now : Now) (sids : List String)
    (fetch fetch' : String → Except String (List Departure))
    (s e : String) (hs : fetch' s = .error e)
    (hother : ∀ t, t ≠ s → fetch' t = fetch t) (i : Nat) :
    (sids[i]? = some s →
       (trackTrainJourney q now sids fetch')[i]? = some (.fetchError s e)) ∧
    (∀ t, sids[i]? = some t → t ≠ s →
       (trackTrainJourney q now sids fetch')[i]? =
         (trackTrainJourney q now sids fetch)[i]?) := by
  constructor
  · intro hget
    simp [trackTrainJourney, List.getElem?_map, hget, checkStation, hs]
  · intro t hget hne
    simp [trackTrainJourney, List.getElem?_map, hget, hother t hne]

/-- C6 witness: with a two-station call where only station "B" fails, the
checkpoint at index 1 records the failure and the checkpoint at index 0
is unchanged from the all-successful run. -/
theorem C6_fault_isolation_witness :
    (trackTrainJourney "RJ 840" ⟨0, 0⟩ ["A", "B"] wFetchErr)[1]? =
      some (.fetchError "B" "boom") ∧
    (trackTrainJourney "RJ 840" ⟨0, 0⟩ ["A", "B"] wFetchErr)[0]? =
      (trackTrainJourney "RJ 840" ⟨0, 0⟩ ["A", "B"] wFetchOk)[0]? :=
  ⟨(C6_fault_isolation "RJ 840" ⟨0, 0⟩ ["A", "B"] wFetchOk wFetchErr "B" "boom" rfl
      (fun t ht => by simp [wFetchErr, wFetchOk, ht]) 1).1 rfl,
   (C6_fault_isolation "RJ 840" ⟨0, 0⟩ ["A", "B"] wFetchOk wFetchErr "B" "boom" rfl
      (fun t ht => by simp [wFetchErr, wFetchOk, ht]) 0).2 "A" rfl (by decide)⟩

/-- C7: the board fetch classifies its outcome exactly as claimed — the
format error iff the `journeysObj = {...}` marker is absent or the
extracted JSON does not parse; the no-departures error iff the payload
parses but its value is falsy or lacks a `journey` list; and otherwise it
resolves with the `journey` list. -/
theorem C7_board_error_taxonomy (parse : String → Option ParsedBody)
    (body : String) :
    (getBoardData parse body = .formatError ↔
       extractJourneysObj body = none ∨
       (∃ s, extractJourneysObj body = some s ∧ parse s = none)) ∧
    (getBoardData parse body = .noDeparturesError ↔
       (∃ s data, extractJourneysObj body = some s ∧ parse s = some data ∧
          (data.truthy = false ∨ data.journey = none))) ∧
    (∀ js, getBoardData parse body = .ok js ↔
       (∃ s data, extractJourneysObj body = some s ∧ parse s = some data ∧
          data.truthy = true ∧ data.journey = some js)) := by
  cases hex : extractJourneysObj body with
  | none => simp [getBoardData, hex]
  | some s =>
    cases hp : parse s with
    | none => simp [getBoardData, hex, hp]
    | some data =>
      cases ht : data.truthy with
      | false => simp [getBoardData, hex, hp, ht]
      | true =>
        cases hj : data.journey with
        | none => simp [getBoardData, hex, hp, ht, hj]
        | some js => simp [getBoardData, hex, hp, ht, hj]

/-- C7 witness: a body without the marker is classified as the format
error. -/
theorem C7_board_error_taxonomy_witness :
    getBoardData wParseNone "no marker here" = .formatError :=
  (C7_board_error_taxonomy wParseNone "no marker here").1.mpr (Or.inl (by decide))

/-- C8: the single-station delay check fails with the not-found error iff
no departure record matches the train label, and when some record
matches it resolves with the formatted information of the first matching
record (first in board order). -/
theorem C8_delay_check (stationId q : String) (ds : List Departure) :
    ((∃ e, checkTrainDelay stationId q ds = .error e) ↔
       ∀ d ∈ ds, matchDelay q d = false) ∧
    (∀ d, ds.find? (matchDelay q) = some d →
       checkTrainDelay stationId q ds = .ok (formatDelayInfo d) ∧
       ∃ i, ds.get? i = some d ∧ matchDelay q d = true ∧
         ∀ j, j < i → ∀ b, ds.get? j = some b → matchDelay q b = false) := by
  constructor
  · constructor
    · rintro ⟨e, he⟩ d hd
      cases hf : ds.find? (matchDelay q) with
      | none => simpa using List.find?_eq_none.mp hf d hd
      | some t => simp [checkTrainDelay, hf] at he
    · intro hall
      have hnone : ds.find? (matchDelay q) = none :=
        List.find?_eq_none.mpr (fun a ha => by simp [hall a ha])
      exact ⟨"Train " ++ q ++ " not found at station " ++ stationId,
        by simp [checkTrainDelay, hnone]⟩
  · intro d hf
    exact ⟨by simp [checkTrainDelay, hf], (find?_first_iff _ _ _).mp hf⟩

/-- C8 witness: on a concrete board the check resolves with the first
matching record's information. -/
theorem C8_delay_check_witness :
    checkTrainDelay "S" "RJ 840" cexBoard = .ok (formatDelayInfo cexSubOnly) :=
  ((C8_delay_check "S" "RJ 840" cexBoard).2 cexSubOnly (by decide)).1

/-- C9: the track result has exactly one checkpoint per input station id,
in the original station-list order: mapping each checkpoint to its
station id recovers the input list itself. -/
theorem C9_checkpoint_order (q : String) (now : Now) (sids : List String)
    (fetch : String → Except String (List Departure)) :
    (trackTrainJourney q now sids fetch).length = sids.length ∧
    (trackTrainJourney q now sids fetch).map Checkpoint.stationId = sids := by
  have hsid : ∀ sid b, (checkStation q now sid b).stationId = sid := by
    intro sid b
    cases b with
    | error e => rfl
    | ok ds =>
      cases h : ds.find? (matchTrack q) <;>
        simp [checkStation, h, Checkpoint.stationId]
  refine ⟨by simp [trackTrainJourney], ?_⟩
  rw [trackTrainJourney, List.map_map]
  have hfun : (Checkpoint.stationId ∘ fun sid => checkStation q now sid (fetch sid)) =
      id := by
    funext sid
    exact hsid sid (fetch sid)
  rw [hfun, List.map_id]

/-- C10: every `found:true` checkpoint returned by `trackTrainJourney`
has its boolean `departed` field equal to whether its `status` field is
the string `departed` — both derive from the same comparison of the same
`now` with the same actual departure instant. -/
theorem C10_departed_matches_status (q : String) (now : Now)
    (sids : List String) (fetch : String → Except String (List Departure))
    (cp : Checkpoint) (sid : String) (info : FoundInfo)
    (hmem : cp ∈ trackTrainJourney q now sids fetch)
    (hcp : cp = .found sid info) :
    info.departed = (info.status == "departed") := by
  subst hcp
  rw [trackTrainJourney] at hmem
  obtain ⟨t, -, hchk⟩ := List.mem_map.mp hmem
  cases hb : fetch t with
  | error e =>
    rw [hb] at hchk
    simp [checkStation] at hchk
  | ok ds =>
    rw [hb] at hchk
    simp only [checkStation] at hchk
    cases hf : ds.find? (matchTrack q) with
    | none => rw [hf] at hchk; simp at hchk
    | some train =>
      rw [hf] at hchk
      obtain ⟨-, hinfo⟩ := Checkpoint.found.inj hchk
      subst hinfo
      show (mkFoundInfo now train).departed = ((mkFoundInfo now train).status == "departed")
      by_cases hnp : nowPastActual now train = true
      · simp [mkFoundInfo, trackStatus, hnp]
      · rw [Bool.not_eq_true] at hnp
        by_cases hhd : hasDelayField train = true <;>
          simp [mkFoundInfo, trackStatus, hnp, hhd]

/-- C10 witness: a concrete found checkpoint of a concrete track call. -/
theorem C10_departed_matches_status_witness :
    (mkFoundInfo ⟨0, 36300⟩ cexExact).departed =
      ((mkFoundInfo ⟨0, 36300⟩ cexExact).status == "departed") :=
  C10_departed_matches_status "RJ 840" ⟨0, 36300⟩ ["A"] wFetchTrain
    (.found "A" (mkFoundInfo ⟨0, 36300⟩ cexExact)) "A"
    (mkFoundInfo ⟨0, 36300⟩ cexExact) (by decide) rfl

end Oebb

